import Mathlib

/-!
Verification of the ingress2httproute controller (Go) against its
natural-language specification.

The Go sources are shallowly embedded below.  Go strings are modelled as
`List Char` (`Str`); Go's byte-wise string comparison coincides with
code-point-wise comparison on UTF-8, and the hostnames, paths and names
involved are ASCII.  Fallible Go functions (returning `(T, error)`) become
`Except Str T`; the Kubernetes object store accessed through the
controller-runtime client is modelled as an explicit association list from
namespaced names to HTTPRoute objects, threaded through the reconciler.

Two controller variants present in the repository are embedded:
  * `IngressController`: the per-hostname reconciler of
    internal/controller/ingress_controller.go together with its helpers
    (extractHostnames, findMatchingGateways, findCatchAllGateways, ...).
  * `GroupedController`: the hostname-grouped variant whose
    `mapToHTTPRouteRules` sorts the produced rules with
    `compareHTTPRouteRule` (slices.SortStableFunc).
Helpers shared verbatim by the variants (createPathMatch, hostnameMatches,
isOwnedBy, isEqual, ...) are defined once at top level.
-/

/-- Go string, modelled as its list of code points. -/
abbrev Str := List Char

/-- Convenience conversion from a Lean string literal to `Str`. -/
def str (s : String) : Str := s.toList

/-- ASCII model of the per-rune lowering performed by Go's strings.EqualFold. -/
def lowerChar (c : Char) : Char := c.toLower

/-- Model of Go strings.EqualFold (case-insensitive equality; ASCII folding). -/
def equalFold (a b : Str) : Bool := a.map lowerChar == b.map lowerChar

/-- Model of Go strings.Compare: lexicographic comparison.  Go compares
bytes; on UTF-8 encoded strings the byte order equals the code-point order
used here. -/
def strCompare : Str → Str → Ordering
  | [], [] => .eq
  | [], _ :: _ => .lt
  | _ :: _, [] => .gt
  | a :: as, b :: bs =>
    if a.toNat < b.toNat then .lt
    else if b.toNat < a.toNat then .gt
    else strCompare as bs

/-- Model of Go strings.ReplaceAll where the pattern is a single character
(the only uses in the source replace "." and "*"). -/
def replaceAllChar (s : Str) (old : Char) (new : Str) : Str :=
  s.flatMap (fun c => if c = old then new else [c])

/-- Namespaced object identity (k8s types.NamespacedName). -/
structure NamespacedName where
  namespace' : Str
  name : Str
deriving DecidableEq, Repr

/-- networkingv1.PathType. -/
inductive PathType
  | exact
  | prefixPath
  | implementationSpecific
deriving DecidableEq, Repr

/-- networkingv1.ServiceBackendPort: number 0 / name "" mean "unset". -/
structure ServiceBackendPort where
  number : Int
  name : Str
deriving DecidableEq, Repr

/-- networkingv1.IngressServiceBackend. -/
structure IngressServiceBackend where
  name : Str
  port : ServiceBackendPort
deriving DecidableEq, Repr

/-- corev1.TypedLocalObjectReference (the Resource alternative of a backend). -/
structure TypedLocalObjectReference where
  apiGroup : Option Str
  kind : Str
  name : Str
deriving DecidableEq, Repr

/-- networkingv1.IngressBackend (Service / Resource discriminated by nil). -/
structure IngressBackend where
  service : Option IngressServiceBackend
  resource : Option TypedLocalObjectReference
deriving DecidableEq, Repr

/-- networkingv1.HTTPIngressPath. -/
structure HTTPIngressPath where
  path : Str
  pathType : Option PathType
  backend : IngressBackend
deriving DecidableEq, Repr

/-- networkingv1.IngressRule; `http = none` models a nil HTTP section. -/
structure IngressRule where
  host : Str
  http : Option (List HTTPIngressPath)
deriving DecidableEq, Repr

/-- networkingv1.Ingress (the fields the controller reads). -/
structure Ingress where
  name : Str
  namespace' : Str
  uid : Str
  rules : List IngressRule
  defaultBackend : Option IngressBackend
deriving DecidableEq, Repr

/-- gatewayv1.FromNamespaces. -/
inductive FromNamespaces
  | all
  | same
  | selector
deriving DecidableEq, Repr

/-- gatewayv1.Listener.  The three nested optional levels of Go's
AllowedRoutes.Namespaces.From are collapsed into one Option: the selector
is taken into account only when all three pointers are non-nil. -/
structure Listener where
  name : Str
  hostname : Option Str
  allowedRoutesNamespacesFrom : Option FromNamespaces
deriving DecidableEq, Repr

/-- gatewayv1.Gateway (the fields the controller reads). -/
structure Gateway where
  name : Str
  namespace' : Str
  listeners : List Listener
deriving DecidableEq, Repr

/-- corev1.ServicePort (the fields used by named-port resolution). -/
structure ServicePort where
  name : Str
  port : Int
deriving DecidableEq, Repr

/-- corev1.Service (the fields used by named-port resolution). -/
structure Service where
  name : Str
  namespace' : Str
  ports : List ServicePort
deriving DecidableEq, Repr

/-- gatewayv1.PathMatchType. -/
inductive PathMatchType
  | exactMatch
  | prefixMatch
  | regularExpression
deriving DecidableEq, Repr

/-- gatewayv1.HTTPPathMatch. -/
structure HTTPPathMatch where
  type : Option PathMatchType
  value : Option Str
deriving DecidableEq, Repr

/-- gatewayv1.HTTPRouteMatch (only the Path member is ever set). -/
structure HTTPRouteMatch where
  path : Option HTTPPathMatch
deriving DecidableEq, Repr

/-- gatewayv1.BackendObjectReference. -/
structure BackendObjectReference where
  group : Option Str
  kind : Option Str
  namespace' : Option Str
  name : Str
  port : Option Int
deriving DecidableEq, Repr

/-- gatewayv1.BackendRef. -/
structure BackendRef where
  backendObjectReference : BackendObjectReference
  weight : Option Int
deriving DecidableEq, Repr

/-- gatewayv1.HTTPBackendRef. -/
structure HTTPBackendRef where
  backendRef : BackendRef
deriving DecidableEq, Repr

/-- gatewayv1.HTTPRouteRule (matches and backendRefs; filters unused).
The field is called `matches'` because `matches` is a Lean keyword. -/
structure HTTPRouteRule where
  matches' : List HTTPRouteMatch
  backendRefs : List HTTPBackendRef
deriving DecidableEq, Repr

/-- gatewayv1.ParentReference. -/
structure ParentReference where
  group : Option Str
  kind : Option Str
  namespace' : Option Str
  name : Str
  sectionName : Option Str
deriving DecidableEq, Repr

/-- gatewayv1.HTTPRouteSpec. -/
structure HTTPRouteSpec where
  parentRefs : List ParentReference
  hostnames : List Str
  rules : List HTTPRouteRule
deriving DecidableEq, Repr

/-- metav1.OwnerReference. -/
structure OwnerReference where
  apiVersion : Str
  kind : Str
  name : Str
  uid : Str
  controller : Option Bool
  blockOwnerDeletion : Option Bool
deriving DecidableEq, Repr

/-- metav1.ObjectMeta (the fields the controller reads or writes). -/
structure ObjectMeta where
  name : Str
  namespace' : Str
  ownerReferences : List OwnerReference
deriving DecidableEq, Repr

/-- gatewayv1.HTTPRoute. -/
structure HTTPRoute where
  meta : ObjectMeta
  spec : HTTPRouteSpec
deriving DecidableEq, Repr

/-- generateHTTPRouteName's hostname normalization: dots become dashes and
asterisks become "wildcard" (internal/controller/ingress_controller.go). -/
def cleanHostname (hostname : Str) : Str :=
  replaceAllChar (replaceAllChar hostname '.' (str "-")) '*' (str "wildcard")

/-- generateHTTPRouteName creates a HTTPRoute name from ingress name and
hostname (internal/controller/ingress_controller.go:341-346). -/
def generateHTTPRouteName (ingressName hostname : Str) : Str :=
  ingressName ++ str "-" ++ cleanHostname hostname

/-- createOwnerReference builds the ownership marker for generated routes. -/
def createOwnerReference (ingress : Ingress) : OwnerReference :=
  { apiVersion := str "networking.k8s.io/v1"
  , kind := str "Ingress"
  , name := ingress.name
  , uid := ingress.uid
  , controller := some true
  , blockOwnerDeletion := some true }

/-- createParentRef builds a ParentReference to one gateway listener.
The Go code reads gateway.GroupVersionKind(); for a gatewayv1.Gateway that
is the constant group/kind below. -/
def createParentRef (gateway : Gateway) (listener : Listener) : ParentReference :=
  { group := some (str "gateway.networking.k8s.io")
  , kind := some (str "Gateway")
  , namespace' := some gateway.namespace'
  , name := gateway.name
  , sectionName := some listener.name }

/-- createPathMatch creates a gateway API path match from an ingress path
(utils.go). -/
def createPathMatch (path : HTTPIngressPath) : HTTPPathMatch :=
  { value := some path.path
  , type := match path.pathType with
      | none => none
      | some PathType.exact => some PathMatchType.exactMatch
      | some PathType.prefixPath => some PathMatchType.prefixMatch
      | some PathType.implementationSpecific => some PathMatchType.regularExpression }

/-- hostnameMatches checks if the ingress hostname matches the gateway
listener hostname (utils.go).  strings.HasPrefix / TrimPrefix / HasSuffix
are byte-wise (case-sensitive); only EqualFold folds case. -/
def hostnameMatches (ingressHost listenerHost : Str) : Bool :=
  if List.isPrefixOf (str "*.") listenerHost then
    let fqdn := listenerHost.drop 2
    List.isSuffixOf fqdn ingressHost && !(equalFold ingressHost fqdn)
  else
    equalFold ingressHost listenerHost

/-- isListenerAccessibleFromNamespace checks if a listener allows routes
from the given namespace (utils.go). -/
def isListenerAccessibleFromNamespace (listener : Listener)
    (gatewayNamespace ingressNamespace : Str) : Bool :=
  let nsSelector := match listener.allowedRoutesNamespacesFrom with
    | none => FromNamespaces.same
    | some v => v
  nsSelector == FromNamespaces.all
    || (nsSelector == FromNamespaces.same && gatewayNamespace == ingressNamespace)

/-- isOwnedBy: an object is owned when some owner reference agrees on
APIVersion, Kind and Name (utils.go). -/
def isOwnedBy (metadata : ObjectMeta) (owner : OwnerReference) : Bool :=
  metadata.ownerReferences.any (fun reference =>
    reference.apiVersion == owner.apiVersion
      && reference.kind == owner.kind
      && reference.name == owner.name)

/-- isEqual: Go serializes both values with json.Marshal and compares the
strings.  On the embedded (finite, pointer-free) data this canonical
serialize-and-compare coincides with structural equality. -/
def isEqual {α : Type} [BEq α] (a b : α) : Bool := a == b

/-- containsBackendRef checks if a backend reference already exists in the
slice (utils.go). -/
def containsBackendRef (backendRefs : List HTTPBackendRef) (ref : HTTPBackendRef) : Bool :=
  backendRefs.any (fun backendRef => isEqual backendRef ref)

/-- extractHostnames collects the rules' hosts in order of first occurrence,
deduplicated via a seen-set (utils.go). -/
def extractHostnames (rules : List IngressRule) : List Str :=
  (rules.foldl
    (fun (acc : List Str × List Str) rule =>
      if acc.1.contains rule.host then acc
      else (rule.host :: acc.1, acc.2 ++ [rule.host]))
    ([], [])).2

/-- All (gateway, listener) pairs in declaration order: the iteration space
of the Go double loop over gateways.Items and gateway.Spec.Listeners. -/
def gatewayListenerPairs (gateways : List Gateway) : List (Gateway × Listener) :=
  gateways.flatMap (fun gateway => gateway.listeners.map (fun listener => (gateway, listener)))

/-- The fmt.Sprintf("%s/%s/%s/%s/%s", ...) deduplication key used by
findMatchingGateways. -/
def parentRefKey (p : ParentReference) : Str :=
  (p.group.getD []) ++ str "/" ++ (p.kind.getD []) ++ str "/"
    ++ (p.namespace'.getD []) ++ str "/" ++ p.name ++ str "/" ++ (p.sectionName.getD [])

/-- findMatchingGateways finds all gateways with a listener that is
namespace-accessible and whose hostname pattern (absent = catch-all)
matches the given hostname; results are deduplicated by parentRefKey
(utils.go for the per-hostname controller). -/
def findMatchingGateways (ingressNamespace hostname : Str) (gateways : List Gateway) :
    List ParentReference :=
  ((gatewayListenerPairs gateways).foldl
    (fun (acc : List Str × List ParentReference) gl =>
      if !isListenerAccessibleFromNamespace gl.2 gl.1.namespace' ingressNamespace then acc
      else
        let matched := match gl.2.hostname with
          | none => true
          | some listenerHostname => hostnameMatches hostname listenerHostname
        if matched then
          let parentRef := createParentRef gl.1 gl.2
          let key := parentRefKey parentRef
          if acc.1.contains key then acc else (key :: acc.1, acc.2 ++ [parentRef])
        else acc)
    ([], [])).2

/-- findCatchAllGateways finds gateways with catch-all listeners: no
hostname, or a hostname starting with "*" (utils.go). -/
def findCatchAllGateways (ingressNamespace : Str) (gateways : List Gateway) :
    List ParentReference :=
  (gatewayListenerPairs gateways).foldl
    (fun acc gl =>
      if !isListenerAccessibleFromNamespace gl.2 gl.1.namespace' ingressNamespace then acc
      else match gl.2.hostname with
        | none => acc ++ [createParentRef gl.1 gl.2]
        | some hostname =>
          if List.isPrefixOf (str "*") hostname then acc ++ [createParentRef gl.1 gl.2]
          else acc)
    []

/-- The external object store, modelled as an association list from
namespaced names to HTTPRoute objects. -/
abbrev Store := List (NamespacedName × HTTPRoute)

/-- Lookup in the store (client.Get on HTTPRoutes; `none` = NotFound). -/
def Store.get : Store → NamespacedName → Option HTTPRoute
  | [], _ => none
  | (k, route) :: rest, key => if k = key then some route else Store.get rest key

/-- Write to the store (client.Create / client.Update on HTTPRoutes). -/
def Store.put : Store → NamespacedName → HTTPRoute → Store
  | [], key, route => [(key, route)]
  | (k, r) :: rest, key, route =>
    if k = key then (key, route) :: rest else (k, r) :: Store.put rest key route

/-- Observable outcome of one reconcileHTTPRoute call, named after the
branch the Go code takes (it logs "created"/"updated", silently leaves
unchanged objects alone, and never touches foreign-owned objects). -/
inductive Outcome
  | created
  | updated
  | unchanged
  | skipped
deriving DecidableEq, Repr

/-- reconcileHTTPRoute creates or updates a single HTTPRoute
(internal/controller/ingress_controller.go:226-260): create when absent;
update in place when owned and deep-unequal; otherwise write nothing. -/
def reconcileHTTPRoute (store : Store) (name : NamespacedName)
    (owner : OwnerReference) (spec : HTTPRouteSpec) : Outcome × Store :=
  match store.get name with
  | none =>
    let httpRoute : HTTPRoute :=
      { meta := { name := name.name, namespace' := name.namespace', ownerReferences := [owner] }
      , spec := spec }
    (Outcome.created, store.put name httpRoute)
  | some httpRoute =>
    if isOwnedBy httpRoute.meta owner then
      if isEqual httpRoute.spec spec then (Outcome.unchanged, store)
      else (Outcome.updated, store.put name { httpRoute with spec := spec })
    else (Outcome.skipped, store)

/-- Lookup of a Service by namespace and name (client.Get on Services). -/
def getService (services : List Service) (namespace' name : Str) : Option Service :=
  services.find? (fun svc => svc.namespace' == namespace' && svc.name == name)

namespace IngressController

/-- Configuration of the per-hostname reconciler (the Client and Scheme
fields are modelled by explicit parameters). -/
structure IngressReconciler where
  requireHostname : Bool
deriving DecidableEq, Repr

/-- mapBackendRef converts an ingress backend into a gateway backend ref
(internal/controller/ingress_controller.go:293-337).  A named port is
resolved against the Service; a missing Service is a hard error, a named
port missing from the Service leaves the port unset. -/
def mapBackendRef (services : List Service) (namespace' : Str) (ref : IngressBackend) :
    Except Str HTTPBackendRef :=
  match ref.resource with
  | some resource =>
    let objectRef : BackendObjectReference :=
      { group := resource.apiGroup
      , kind := some resource.kind
      , namespace' := some namespace'
      , name := resource.name
      , port := none }
    Except.ok { backendRef := { backendObjectReference := objectRef, weight := some 1 } }
  | none =>
    match ref.service with
    | some service =>
      let base : BackendObjectReference :=
        { group := some []
        , kind := some (str "Service")
        , namespace' := some namespace'
        , name := service.name
        , port := none }
      if service.port.number ≠ 0 then
        Except.ok { backendRef :=
          { backendObjectReference := { base with port := some service.port.number }
          , weight := some 1 } }
      else if service.port.name ≠ [] then
        match getService services namespace' service.name with
        | none => Except.error (str "service not found")
        | some svc =>
          let port := (svc.ports.find? (fun svcPort => svcPort.name == service.port.name)).map
            (fun svcPort => svcPort.port)
          Except.ok { backendRef :=
            { backendObjectReference := { base with port := port }, weight := some 1 } }
      else
        Except.ok { backendRef := { backendObjectReference := base, weight := some 1 } }
    | none =>
      Except.ok { backendRef :=
        { backendObjectReference :=
            { group := none, kind := none, namespace' := none, name := [], port := none }
        , weight := some 1 } }

/-- The Reconcile prologue that maps the optional default backend
(ingress_controller.go:86-93). -/
def mapDefaultBackendRef (services : List Service) (namespace' : Str) :
    Option IngressBackend → Except Str (Option HTTPBackendRef)
  | none => Except.ok none
  | some backend => (mapBackendRef services namespace' backend).map some

/-- The inner loop of createHTTPRouteRules over one rule's HTTP paths
(ingress_controller.go:187-213). -/
def createRulesForPaths (services : List Service) (namespace' : Str)
    (defaultBackendRef : Option HTTPBackendRef) :
    List HTTPIngressPath → Except Str (List HTTPRouteRule)
  | [] => Except.ok []
  | path :: rest => do
    let pathMatch := createPathMatch path
    let matchList : List HTTPRouteMatch := [{ path := some pathMatch }]
    let ref ← mapBackendRef services namespace' path.backend
    let backendRefs : List HTTPBackendRef := [ref]
    let backendRefs := match defaultBackendRef with
      | some d => if !containsBackendRef backendRefs d then backendRefs ++ [d] else backendRefs
      | none => backendRefs
    let restRules ← createRulesForPaths services namespace' defaultBackendRef rest
    Except.ok ({ matches' := matchList, backendRefs := backendRefs } :: restRules)

/-- createHTTPRouteRules converts ingress HTTP rules to HTTPRoute rules
(ingress_controller.go:182-223); rules without an HTTP section contribute a
match-less rule for the default backend when one exists. -/
def createHTTPRouteRules (services : List Service) (namespace' : Str)
    (rules : List IngressRule) (defaultBackendRef : Option HTTPBackendRef) :
    Except Str (List HTTPRouteRule) :=
  match rules with
  | [] => Except.ok []
  | rule :: rest => do
    let head ← match rule.http with
      | some paths => createRulesForPaths services namespace' defaultBackendRef paths
      | none =>
        match defaultBackendRef with
        | some d => Except.ok [{ matches' := [], backendRefs := [d] }]
        | none => Except.ok ([] : List HTTPRouteRule)
    let tail ← createHTTPRouteRules services namespace' rest defaultBackendRef
    Except.ok (head ++ tail)

/-- createDefaultBackendSpec creates the spec for the catch-all HTTPRoute
of a default-backend-only ingress (ingress_controller.go:164-179); when no
accessible catch-all listener exists it fails with an error. -/
def createDefaultBackendSpec (ingressNamespace : Str) (backendRef : HTTPBackendRef)
    (gateways : List Gateway) : Except Str HTTPRouteSpec :=
  let parentRefs := findCatchAllGateways ingressNamespace gateways
  if parentRefs.isEmpty then
    Except.error (str "no catch-all gateways found for default backend")
  else
    Except.ok
      { parentRefs := parentRefs
      , hostnames := []
      , rules := [{ matches' := [], backendRefs := [backendRef] }] }

/-- The per-hostname loop of Reconcile (ingress_controller.go:117-158):
for each hostname, build the rules from the rules matching that host, find
the candidate parent refs, and create/update one HTTPRoute; a failing
backend resolution aborts with the error (writes already performed stay in
the store), while empty rules or empty parent refs skip the hostname. -/
def reconcileLoop (services : List Service) (gateways : List Gateway)
    (namespace' reqName : Str) (owner : OwnerReference)
    (defaultBackendRef : Option HTTPBackendRef) (ingressRules : List IngressRule) :
    List Str → Store → Option Str × Store
  | [], store => (none, store)
  | hostname :: rest, store =>
    let matchingRules := ingressRules.filter (fun rule => rule.host == hostname)
    match createHTTPRouteRules services namespace' matchingRules defaultBackendRef with
    | Except.error e => (some e, store)
    | Except.ok rules =>
      if rules.isEmpty then
        reconcileLoop services gateways namespace' reqName owner defaultBackendRef
          ingressRules rest store
      else
        let parentRefs := findMatchingGateways namespace' hostname gateways
        if parentRefs.isEmpty then
          reconcileLoop services gateways namespace' reqName owner defaultBackendRef
            ingressRules rest store
        else
          let spec : HTTPRouteSpec :=
            { parentRefs := parentRefs, hostnames := [hostname], rules := rules }
          let httpRouteName := generateHTTPRouteName reqName hostname
          let step := reconcileHTTPRoute store
            { namespace' := namespace', name := httpRouteName } owner spec
          reconcileLoop services gateways namespace' reqName owner defaultBackendRef
            ingressRules rest step.2

/-- Reconcile for one ingress (ingress_controller.go:59-161).  The request
and the cluster state (ingress, gateways, services, stored HTTPRoutes) are
explicit; the result is the error returned to the manager together with the
store after the pass.  An absent ingress (NotFound) ends the pass benignly. -/
def Reconcile (r : IngressReconciler) (services : List Service) (gateways : List Gateway)
    (store : Store) (ingress? : Option Ingress) (req : NamespacedName) :
    Option Str × Store :=
  match ingress? with
  | none => (none, store)
  | some ingress =>
    if gateways.isEmpty then (none, store)
    else
      let owner := createOwnerReference ingress
      match mapDefaultBackendRef services req.namespace' ingress.defaultBackend with
      | Except.error e => (some e, store)
      | Except.ok defaultBackendRef =>
        let hostnames := extractHostnames ingress.rules
        if hostnames.isEmpty then
          match defaultBackendRef with
          | some dref =>
            if !r.requireHostname then
              match createDefaultBackendSpec req.namespace' dref gateways with
              | Except.error e => (some e, store)
              | Except.ok spec =>
                let step := reconcileHTTPRoute store req owner spec
                (none, step.2)
            else (none, store)
          | none => (none, store)
        else
          reconcileLoop services gateways req.namespace' req.name owner defaultBackendRef
            ingress.rules hostnames store

end IngressController

/-- compareParentRef's sibling in utils: compareHTTPRouteRule orders two
HTTPRoute rules by the first match's path value, then by the first
backend's name, with "" for absent components (utils.go). -/
def compareHTTPRouteRule (a b : HTTPRouteRule) : Ordering :=
  let aPath : Str := match a.matches'.head? with
    | some m => match m.path with
      | some pathMatch => pathMatch.value.getD []
      | none => []
    | none => []
  let bPath : Str := match b.matches'.head? with
    | some m => match m.path with
      | some pathMatch => pathMatch.value.getD []
      | none => []
    | none => []
  match strCompare aPath bPath with
  | Ordering.eq =>
    let aBackend : Str := match a.backendRefs.head? with
      | some ref => ref.backendRef.backendObjectReference.name
      | none => []
    let bBackend : Str := match b.backendRefs.head? with
      | some ref => ref.backendRef.backendObjectReference.name
      | none => []
    strCompare aBackend bBackend
  | cmp => cmp

/-- Insertion of one element into a sorted list: skip over elements that
compare strictly smaller, keeping equal elements in their original order. -/
def orderedInsertCmp {α : Type} (cmp : α → α → Ordering) (a : α) : List α → List α
  | [] => [a]
  | b :: l =>
    if cmp a b = Ordering.gt then b :: orderedInsertCmp cmp a l else a :: b :: l

/-- Model of Go slices.SortStableFunc as a stable insertion sort. -/
def sortStableFunc {α : Type} (cmp : α → α → Ordering) : List α → List α
  | [] => []
  | a :: l => orderedInsertCmp cmp a (sortStableFunc cmp l)

namespace GroupedController

/-- mapBackendRef of the hostname-grouped controller variant: like the
per-hostname variant but without a weight, returning a pointer (never nil
on success). -/
def mapBackendRef (services : List Service) (namespace' : Str) (ref : IngressBackend) :
    Except Str HTTPBackendRef :=
  match ref.resource with
  | some resource =>
    let objectRef : BackendObjectReference :=
      { group := resource.apiGroup
      , kind := some resource.kind
      , namespace' := some namespace'
      , name := resource.name
      , port := none }
    Except.ok { backendRef := { backendObjectReference := objectRef, weight := none } }
  | none =>
    match ref.service with
    | some service =>
      let base : BackendObjectReference :=
        { group := some []
        , kind := some (str "Service")
        , namespace' := some namespace'
        , name := service.name
        , port := none }
      if service.port.number ≠ 0 then
        Except.ok { backendRef :=
          { backendObjectReference := { base with port := some service.port.number }
          , weight := none } }
      else if service.port.name ≠ [] then
        match getService services namespace' service.name with
        | none => Except.error (str "service not found")
        | some svc =>
          let port := (svc.ports.find? (fun svcPort => svcPort.name == service.port.name)).map
            (fun svcPort => svcPort.port)
          Except.ok { backendRef :=
            { backendObjectReference := { base with port := port }, weight := none } }
      else
        Except.ok { backendRef := { backendObjectReference := base, weight := none } }
    | none =>
      Except.ok { backendRef :=
        { backendObjectReference :=
            { group := none, kind := none, namespace' := none, name := [], port := none }
        , weight := none } }

/-- The collection phase of mapToHTTPRouteRules: one HTTPRoute rule per
ingress HTTP path, in declaration order. -/
def collectHTTPRouteRules (services : List Service) (namespace' : Str) :
    List HTTPIngressPath → Except Str (List HTTPRouteRule)
  | [] => Except.ok []
  | path :: rest => do
    let pathMatch := createPathMatch path
    let backendRef ← mapBackendRef services namespace' path.backend
    let restRules ← collectHTTPRouteRules services namespace' rest
    Except.ok ({ matches' := [{ path := some pathMatch }]
               , backendRefs := [backendRef] } :: restRules)

/-- The rule loop of mapToHTTPRouteRules over the ingress rules: rules
without an HTTP section contribute nothing. -/
def collectRules (services : List Service) (namespace' : Str) :
    List IngressRule → Except Str (List HTTPRouteRule)
  | [] => Except.ok []
  | rule :: rest => do
    let head ← match rule.http with
      | some paths => collectHTTPRouteRules services namespace' paths
      | none => Except.ok ([] : List HTTPRouteRule)
    let tail ← collectRules services namespace' rest
    Except.ok (head ++ tail)

/-- mapToHTTPRouteRules converts ingress HTTP rules to HTTPRoute rules and
finally sorts them with slices.SortStableFunc(compareHTTPRouteRule)
(the hostname-grouped ingress_controller.go:142-170). -/
def mapToHTTPRouteRules (services : List Service) (namespace' : Str)
    (rules : List IngressRule) : Except Str (List HTTPRouteRule) := do
  let result ← collectRules services namespace' rules
  Except.ok (sortStableFunc compareHTTPRouteRule result)

end GroupedController

theorem strCompare_refl (a : Str) : strCompare a a = Ordering.eq := by
  induction a with
  | nil => rfl
  | cons x xs ih => simp [strCompare, ih]

theorem strCompare_gt_asymm :
    ∀ a b : Str, strCompare a b = Ordering.gt → strCompare b a ≠ Ordering.gt := by
  intro a
  induction a with
  | nil =>
    intro b hab
    cases b <;> simp [strCompare] at hab
  | cons x xs ih =>
    intro b hab
    cases b with
    | nil => simp [strCompare]
    | cons y ys =>
      simp only [strCompare] at hab ⊢
      by_cases hxy : x.toNat < y.toNat
      · simp [hxy] at hab
      · by_cases hyx : y.toNat < x.toNat
        · simp [hyx]
        · simp [hxy, hyx] at hab ⊢
          exact ih ys hab

theorem strCompare_eq_left :
    ∀ a b c : Str, strCompare a b = Ordering.eq → strCompare a c = strCompare b c := by
  intro a
  induction a with
  | nil =>
    intro b c hab
    cases b with
    | nil => rfl
    | cons y ys => simp [strCompare] at hab
  | cons x xs ih =>
    intro b c hab
    cases b with
    | nil => simp [strCompare] at hab
    | cons y ys =>
      simp only [strCompare] at hab
      split at hab
      · simp at hab
      · split at hab
        · simp at hab
        · cases c with
          | nil => rfl
          | cons z zs =>
            simp only [strCompare]
            have hxy : x.toNat = y.toNat := by omega
            rw [hxy, ih ys zs hab]

theorem strCompare_eq_symm {a b : Str} (h : strCompare a b = Ordering.eq) :
    strCompare b a = Ordering.eq := by
  have := strCompare_eq_left a b a h
  rw [strCompare_refl] at this
  exact this.symm

theorem strCompare_eq_right (a : Str) {b c : Str} (h : strCompare b c = Ordering.eq) :
    strCompare a b = strCompare a c := by
  induction a generalizing b c with
  | nil =>
    cases b with
    | nil => cases c with
      | nil => rfl
      | cons z zs => simp [strCompare] at h
    | cons y ys => cases c with
      | nil => simp [strCompare] at h
      | cons z zs => rfl
  | cons x xs ih =>
    cases b with
    | nil => cases c with
      | nil => rfl
      | cons z zs => simp [strCompare] at h
    | cons y ys => cases c with
      | nil => simp [strCompare] at h
      | cons z zs =>
        simp only [strCompare] at h ⊢
        split at h
        · simp at h
        · split at h
          · simp at h
          · have hyz : y.toNat = z.toNat := by omega
            rw [hyz, ih h]

theorem strCompare_lt_trans :
    ∀ a b c : Str, strCompare a b = Ordering.lt → strCompare b c = Ordering.lt →
      strCompare a c = Ordering.lt := by
  intro a
  induction a with
  | nil =>
    intro b c hab hbc
    cases b with
    | nil => exact hbc
    | cons y ys =>
      cases c with
      | nil => simp [strCompare] at hbc
      | cons z zs => rfl
  | cons x xs ih =>
    intro b c hab hbc
    cases b with
    | nil => simp [strCompare] at hab
    | cons y ys =>
      cases c with
      | nil => simp [strCompare] at hbc
      | cons z zs =>
        simp only [strCompare] at hab hbc ⊢
        split at hab
        · split at hbc
          · split
            · rfl
            · omega
          · split at hbc
            · simp at hbc
            · split
              · rfl
              · omega
        · split at hab
          · simp at hab
          · split at hbc
            · split
              · rfl
              · omega
            · split at hbc
              · simp at hbc
              · split
                · rfl
                · split
                  · omega
                  · exact ih ys zs hab hbc

theorem strCompare_le_trans {a b c : Str}
    (hab : strCompare a b ≠ Ordering.gt) (hbc : strCompare b c ≠ Ordering.gt) :
    strCompare a c ≠ Ordering.gt := by
  rcases hab' : strCompare a b with _ | _ | _
  · rcases hbc' : strCompare b c with _ | _ | _
    · rw [strCompare_lt_trans a b c hab' hbc']
      simp
    · rw [strCompare_eq_right a hbc'] at hab'
      rw [hab']
      simp
    · exact absurd hbc' hbc
  · rw [strCompare_eq_left a b c hab']
    exact hbc
  · exact absurd hab' hab

/-- The path key compareHTTPRouteRule sorts on first. -/
def rulePathValue (a : HTTPRouteRule) : Str :=
  match a.matches'.head? with
  | some m => match m.path with
    | some pathMatch => pathMatch.value.getD []
    | none => []
  | none => []

/-- The backend-name key compareHTTPRouteRule sorts on second. -/
def ruleBackendName (a : HTTPRouteRule) : Str :=
  match a.backendRefs.head? with
  | some ref => ref.backendRef.backendObjectReference.name
  | none => []

theorem compareHTTPRouteRule_eq_keys (a b : HTTPRouteRule) :
    compareHTTPRouteRule a b =
      match strCompare (rulePathValue a) (rulePathValue b) with
      | Ordering.eq => strCompare (ruleBackendName a) (ruleBackendName b)
      | cmp => cmp := by
  rfl

theorem compareHTTPRouteRule_gt_iff (a b : HTTPRouteRule) :
    compareHTTPRouteRule a b = Ordering.gt ↔
      (strCompare (rulePathValue a) (rulePathValue b) = Ordering.gt ∨
        (strCompare (rulePathValue a) (rulePathValue b) = Ordering.eq ∧
          strCompare (ruleBackendName a) (ruleBackendName b) = Ordering.gt)) := by
  rw [compareHTTPRouteRule_eq_keys]
  rcases h : strCompare (rulePathValue a) (rulePathValue b) with _ | _ | _ <;> simp

theorem compareHTTPRouteRule_gt_asymm {a b : HTTPRouteRule}
    (h : compareHTTPRouteRule a b = Ordering.gt) :
    compareHTTPRouteRule b a ≠ Ordering.gt := by
  intro h'
  rw [compareHTTPRouteRule_gt_iff] at h h'
  rcases h with hp | ⟨hp, hn⟩ <;> rcases h' with hq | ⟨hq, hm⟩
  · exact strCompare_gt_asymm _ _ hp hq
  · rw [strCompare_eq_symm hq] at hp
    cases hp
  · rw [strCompare_eq_symm hp] at hq
    cases hq
  · exact strCompare_gt_asymm _ _ hn hm

theorem compareHTTPRouteRule_le_trans {a b c : HTTPRouteRule}
    (hab : compareHTTPRouteRule a b ≠ Ordering.gt)
    (hbc : compareHTTPRouteRule b c ≠ Ordering.gt) :
    compareHTTPRouteRule a c ≠ Ordering.gt := by
  have hab' : ¬ _ := fun hcontra => hab ((compareHTTPRouteRule_gt_iff a b).mpr hcontra)
  have hbc' : ¬ _ := fun hcontra => hbc ((compareHTTPRouteRule_gt_iff b c).mpr hcontra)
  push_neg at hab' hbc'
  obtain ⟨hab1, hab2⟩ := hab'
  obtain ⟨hbc1, hbc2⟩ := hbc'
  intro hacgt
  have hac := (compareHTTPRouteRule_gt_iff a c).mp hacgt
  rcases h1 : strCompare (rulePathValue a) (rulePathValue b) with _ | _ | _
  · rcases h2 : strCompare (rulePathValue b) (rulePathValue c) with _ | _ | _
    · have hac' := strCompare_lt_trans _ _ _ h1 h2
      rcases hac with hx | ⟨hx, _⟩ <;> rw [hac'] at hx <;> cases hx
    · have hac' : strCompare (rulePathValue a) (rulePathValue c) = Ordering.lt := by
        rw [← strCompare_eq_right (rulePathValue a) h2]
        exact h1
      rcases hac with hx | ⟨hx, _⟩ <;> rw [hac'] at hx <;> cases hx
    · exact absurd h2 hbc1
  · rcases h2 : strCompare (rulePathValue b) (rulePathValue c) with _ | _ | _
    · have hac' : strCompare (rulePathValue a) (rulePathValue c) = Ordering.lt := by
        rw [strCompare_eq_left _ _ _ h1]
        exact h2
      rcases hac with hx | ⟨hx, _⟩ <;> rw [hac'] at hx <;> cases hx
    · have hac' : strCompare (rulePathValue a) (rulePathValue c) = Ordering.eq := by
        rw [strCompare_eq_left _ _ _ h1]
        exact h2
      rcases hac with hx | ⟨hx, hn⟩
      · rw [hac'] at hx
        cases hx
      · exact strCompare_le_trans (hab2 h1) (hbc2 h2) hn
    · exact absurd h2 hbc1
  · exact absurd h1 hab1

theorem mem_orderedInsertCmp {α : Type} (cmp : α → α → Ordering) (a x : α) :
    ∀ l : List α, x ∈ orderedInsertCmp cmp a l ↔ x = a ∨ x ∈ l := by
  intro l
  induction l with
  | nil => simp [orderedInsertCmp]
  | cons b t ih =>
    simp only [orderedInsertCmp]
    split
    · simp only [List.mem_cons, ih]
      tauto
    · simp only [List.mem_cons]

theorem pairwise_orderedInsertCmp {α : Type} (cmp : α → α → Ordering)
    (hasymm : ∀ a b : α, cmp a b = Ordering.gt → cmp b a ≠ Ordering.gt)
    (htrans : ∀ a b c : α, cmp a b ≠ Ordering.gt → cmp b c ≠ Ordering.gt →
      cmp a c ≠ Ordering.gt)
    (a : α) :
    ∀ l : List α, List.Pairwise (fun x y => cmp x y ≠ Ordering.gt) l →
      List.Pairwise (fun x y => cmp x y ≠ Ordering.gt) (orderedInsertCmp cmp a l) := by
  intro l
  induction l with
  | nil =>
    intro _
    simp [orderedInsertCmp]
  | cons b t ih =>
    intro hl
    rcases List.pairwise_cons.mp hl with ⟨hb, ht⟩
    simp only [orderedInsertCmp]
    split
    · rename_i hgt
      refine List.pairwise_cons.mpr ⟨?_, ih ht⟩
      intro x hx
      rcases (mem_orderedInsertCmp cmp a x t).mp hx with hxa | hxt
      · rw [hxa]
        exact hasymm a b hgt
      · exact hb x hxt
    · rename_i hle
      refine List.pairwise_cons.mpr ⟨?_, hl⟩
      intro x hx
      rcases List.mem_cons.mp hx with hxb | hxt
      · rw [hxb]
        exact hle
      · exact htrans a b x hle (hb x hxt)

theorem pairwise_sortStableFunc {α : Type} (cmp : α → α → Ordering)
    (hasymm : ∀ a b : α, cmp a b = Ordering.gt → cmp b a ≠ Ordering.gt)
    (htrans : ∀ a b c : α, cmp a b ≠ Ordering.gt → cmp b c ≠ Ordering.gt →
      cmp a c ≠ Ordering.gt) :
    ∀ l : List α, List.Pairwise (fun x y => cmp x y ≠ Ordering.gt) (sortStableFunc cmp l) := by
  intro l
  induction l with
  | nil => simp [sortStableFunc]
  | cons a t ih =>
    exact pairwise_orderedInsertCmp cmp hasymm htrans a (sortStableFunc cmp t) ih

theorem Store.get_put_self (store : Store) (key : NamespacedName) (route : HTTPRoute) :
    Store.get (Store.put store key route) key = some route := by
  induction store with
  | nil => simp [Store.put, Store.get]
  | cons kv rest ih =>
    obtain ⟨k, r⟩ := kv
    simp only [Store.put]
    split
    · simp [Store.get]
    · rename_i hne
      simp only [Store.get]
      rw [if_neg hne]
      exact ih

theorem Store.get_put_other (store : Store) (key key' : NamespacedName) (route : HTTPRoute)
    (h : key ≠ key') :
    Store.get (Store.put store key route) key' = Store.get store key' := by
  induction store with
  | nil => simp [Store.put, Store.get, h]
  | cons kv rest ih =>
    obtain ⟨k, r⟩ := kv
    simp only [Store.put]
    split
    · rename_i hk
      subst hk
      simp [Store.get, h]
    · simp only [Store.get]
      split
      · rfl
      · exact ih

/-- Modelled from the spec (claim C2 wildcard clause): the match requires
appHost to case-insensitively end with "." followed by the suffix, and not
itself equal the suffix.  Used only to compare the spec's wording with the
code's hostnameMatches. -/
def specWildcardMatches (appHost suffix : Str) : Bool :=
  List.isSuffixOf (('.' :: suffix).map lowerChar) (appHost.map lowerChar)
    && !(equalFold appHost suffix)

/-- Modelled from the spec (claim C6): admit when the listener policy is
all-namespaces, and in every other case (including absent/default) when
the declaration's namespace equals the entry point's namespace.  Used only
to compare the spec's wording with the code's accessibility check. -/
def specListenerAccessible (listener : Listener)
    (gatewayNamespace ingressNamespace : Str) : Bool :=
  listener.allowedRoutesNamespacesFrom == some FromNamespaces.all
    || gatewayNamespace == ingressNamespace

/-- Helper for witnesses and counterexamples: a service backend with a
numeric port. -/
def numericBackend (name : String) (port : Int) : IngressBackend :=
  { service := some { name := str name, port := { number := port, name := [] } }
  , resource := none }

/-- Helper for witnesses and counterexamples: an HTTP path rule of type
Prefix. -/
def samplePath (p : String) (b : IngressBackend) : HTTPIngressPath :=
  { path := str p, pathType := some PathType.prefixPath, backend := b }

/-- Helper for witnesses and counterexamples: a catch-all gateway in
namespace "ns" with one listener without hostname restriction. -/
def sampleGateway : Gateway :=
  { name := str "gw", namespace' := str "ns"
  , listeners := [{ name := str "l", hostname := none, allowedRoutesNamespacesFrom := none }] }

/-- Helper: the reconcile request for the sample ingress "ns/ing". -/
def sampleReq : NamespacedName := { namespace' := str "ns", name := str "ing" }

/-- Helper: the owner marker of the sample ingress. -/
def sampleOwner : OwnerReference :=
  { apiVersion := str "networking.k8s.io/v1", kind := str "Ingress", name := str "ing"
  , uid := str "uid-1", controller := some true, blockOwnerDeletion := some true }

/-- Helper: a small desired HTTPRoute spec. -/
def sampleSpec : HTTPRouteSpec :=
  { parentRefs := [], hostnames := [str "a.com"], rules := [] }

/-- Helper: a list is non-empty exactly when isEmpty is false. -/
theorem isEmpty_false_of_ne_nil {α : Type} {l : List α} (h : l ≠ []) :
    l.isEmpty = false := by
  cases l with
  | nil => exact absurd rfl h
  | cons a t => rfl

/-- Claim C2, counterexample: hostnameMatches accepts "xexample.com"
against the pattern "*.example.com" although the application hostname does
not end with ".example.com" (the code checks a plain case-sensitive suffix
of "example.com", without requiring a label separator), so the claimed
characterisation of the wildcard match is false at this input. -/
theorem c2_counterexample :
    hostnameMatches (str "xexample.com") (str "*.example.com") = true
    ∧ specWildcardMatches (str "xexample.com") (str "example.com") = false :=
  ⟨by decide, by decide⟩

/-- Claim C2, amended: for a listener pattern "*." ++ suffix, the match
function returns true exactly when the application hostname has the suffix
as a case-sensitive suffix (no label separator required, no case folding)
and is not itself case-insensitively equal to the suffix; in particular
the bare domain never matches its own wildcard pattern. -/
theorem c2_hostname_wildcard_amended (appHost suffix : Str) :
    hostnameMatches appHost ('*' :: '.' :: suffix)
      = (List.isSuffixOf suffix appHost && !(equalFold appHost suffix)) := by
  have hpre : List.isPrefixOf (str "*.") ('*' :: '.' :: suffix) = true := by
    have hstr : str "*." = ['*', '.'] := by decide
    rw [hstr]
    simp [List.isPrefixOf]
  simp only [hostnameMatches, hpre, if_true, List.drop_succ_cons, List.drop_zero]

/-- Claim C5, counterexample: createPathMatch maps ImplementationSpecific
to a regular-expression match, not to the prefix match the claim states. -/
theorem c5_counterexample :
    (createPathMatch { path := str "/legacy"
                     , pathType := some PathType.implementationSpecific
                     , backend := numericBackend "s" 80 }).type
        = some PathMatchType.regularExpression
    ∧ some PathMatchType.regularExpression ≠ some PathMatchType.prefixMatch :=
  ⟨by decide, by decide⟩

/-- Claim C5, amended: the path translation carries the path value through
unmodified and maps Prefix to a prefix match, Exact to an exact match,
ImplementationSpecific to a regular-expression match, and an absent
match-kind to an unspecified kind. -/
theorem c5_path_translation_amended (path : HTTPIngressPath) :
    (createPathMatch path).value = some path.path
    ∧ (path.pathType = none → (createPathMatch path).type = none)
    ∧ (path.pathType = some PathType.prefixPath →
        (createPathMatch path).type = some PathMatchType.prefixMatch)
    ∧ (path.pathType = some PathType.exact →
        (createPathMatch path).type = some PathMatchType.exactMatch)
    ∧ (path.pathType = some PathType.implementationSpecific →
        (createPathMatch path).type = some PathMatchType.regularExpression) := by
  refine ⟨rfl, ?_, ?_, ?_, ?_⟩ <;> intro h <;> simp [createPathMatch, h]

/-- Claim C5, witness: the amended theorem evaluated on the path "/api" of
type Prefix. -/
theorem c5_witness :
    (createPathMatch (samplePath "/api" (numericBackend "s" 80))).value = some (str "/api")
    ∧ (createPathMatch (samplePath "/api" (numericBackend "s" 80))).type
        = some PathMatchType.prefixMatch :=
  ⟨(c5_path_translation_amended _).1
  , (c5_path_translation_amended _).2.2.1 rfl⟩

/-- Claim C6, counterexample: a listener whose declared policy is the
Selector policy admits no namespace at all — not even the entry point's
own namespace — whereas the claim says every policy other than
all-namespaces admits the declaration namespace equal to the entry point
namespace. -/
theorem c6_counterexample :
    isListenerAccessibleFromNamespace
        { name := str "l", hostname := none
        , allowedRoutesNamespacesFrom := some FromNamespaces.selector }
        (str "ns") (str "ns") = false
    ∧ specListenerAccessible
        { name := str "l", hostname := none
        , allowedRoutesNamespacesFrom := some FromNamespaces.selector }
        (str "ns") (str "ns") = true :=
  ⟨by decide, by decide⟩

/-- Claim C6, amended: a listener is admitted exactly when its effective
policy (the declared one, defaulting to same-namespace) is all-namespaces,
or is same-namespace and the declaration's namespace equals the entry
point's namespace; a Selector policy admits nothing. -/
theorem c6_accessibility_amended (listener : Listener)
    (gatewayNamespace ingressNamespace : Str) :
    isListenerAccessibleFromNamespace listener gatewayNamespace ingressNamespace = true
      ↔ (listener.allowedRoutesNamespacesFrom.getD FromNamespaces.same = FromNamespaces.all
          ∨ (listener.allowedRoutesNamespacesFrom.getD FromNamespaces.same = FromNamespaces.same
              ∧ gatewayNamespace = ingressNamespace)) := by
  simp only [isListenerAccessibleFromNamespace]
  cases h : listener.allowedRoutesNamespacesFrom with
  | none => simp [h, Option.getD]
  | some v => cases v <;> simp [h, Option.getD]

/-- Claim C6, witness: the amended theorem evaluated on a listener without
a declared policy, in the gateway's own namespace. -/
theorem c6_witness :
    isListenerAccessibleFromNamespace
      { name := str "l", hostname := none, allowedRoutesNamespacesFrom := none }
      (str "ns") (str "ns") = true :=
  (c6_accessibility_amended _ _ _).mpr (Or.inr ⟨rfl, rfl⟩)

/-- Claim C3: applying reconcileHTTPRoute twice in succession with the
same identity, owner marker and desired spec yields Created on the first
call and Unchanged on the second, the second call performing zero writes:
the stored spec is compared to the desired spec by the canonical
serialize-and-compare deep equality isEqual over the full spec, which
succeeds on the spec the first call just wrote. -/
theorem c3_apply_twice_idempotent (store : Store) (name : NamespacedName)
    (owner : OwnerReference) (spec : HTTPRouteSpec)
    (h : store.get name = none) :
    (reconcileHTTPRoute store name owner spec).1 = Outcome.created
    ∧ (reconcileHTTPRoute (reconcileHTTPRoute store name owner spec).2 name owner spec).1
        = Outcome.unchanged
    ∧ (reconcileHTTPRoute (reconcileHTTPRoute store name owner spec).2 name owner spec).2
        = (reconcileHTTPRoute store name owner spec).2 := by
  have h1 : reconcileHTTPRoute store name owner spec =
      (Outcome.created, store.put name
        { meta := { name := name.name, namespace' := name.namespace'
                  , ownerReferences := [owner] }
        , spec := spec }) := by
    simp only [reconcileHTTPRoute, h]
  rw [h1]
  have h2 : (store.put name
      { meta := { name := name.name, namespace' := name.namespace'
                , ownerReferences := [owner] }
      , spec := spec } : Store).get name = some
        { meta := { name := name.name, namespace' := name.namespace'
                  , ownerReferences := [owner] }
        , spec := spec } := Store.get_put_self store name _
  refine ⟨rfl, ?_, ?_⟩ <;> simp [reconcileHTTPRoute, h2, isOwnedBy, isEqual]

/-- Claim C3, witness: the theorem evaluated on the empty store with the
sample identity, owner and spec. -/
theorem c3_witness :
    (Store.get ([] : Store) sampleReq = none)
    ∧ ((reconcileHTTPRoute [] sampleReq sampleOwner sampleSpec).1 = Outcome.created
      ∧ (reconcileHTTPRoute (reconcileHTTPRoute [] sampleReq sampleOwner sampleSpec).2
          sampleReq sampleOwner sampleSpec).1 = Outcome.unchanged
      ∧ (reconcileHTTPRoute (reconcileHTTPRoute [] sampleReq sampleOwner sampleSpec).2
          sampleReq sampleOwner sampleSpec).2
          = (reconcileHTTPRoute [] sampleReq sampleOwner sampleSpec).2) :=
  ⟨rfl, c3_apply_twice_idempotent [] sampleReq sampleOwner sampleSpec rfl⟩

/-- Claim C4: when the stored object with the requested identity is not
owned by the reconciling declaration's owner marker, reconcileHTTPRoute
returns the Skipped outcome, issues no write (the store is returned
unchanged), and the stored object's spec is byte-for-byte unchanged —
whatever the desired spec is. -/
theorem c4_foreign_owned_skipped (store : Store) (name : NamespacedName)
    (owner : OwnerReference) (spec : HTTPRouteSpec) (route : HTTPRoute)
    (hget : store.get name = some route)
    (hown : isOwnedBy route.meta owner = false) :
    reconcileHTTPRoute store name owner spec = (Outcome.skipped, store)
    ∧ (reconcileHTTPRoute store name owner spec).2.get name = some route := by
  have hmain : reconcileHTTPRoute store name owner spec = (Outcome.skipped, store) := by
    simp [reconcileHTTPRoute, hget, hown]
  refine ⟨hmain, ?_⟩
  rw [hmain]
  exact hget

/-- Helper: a stored route owned by a different declaration ("other"). -/
def foreignRoute : HTTPRoute :=
  { meta := { name := str "ing-a-com", namespace' := str "ns"
            , ownerReferences := [{ sampleOwner with name := str "other" }] }
  , spec := { parentRefs := [], hostnames := [str "a.com"], rules := [] } }

/-- Claim C4, witness: the theorem evaluated on a store holding a
foreign-owned route under the requested identity, with a desired spec that
differs from the stored one. -/
theorem c4_witness :
    ((Store.get ([(sampleReq, foreignRoute)] : Store) sampleReq = some foreignRoute)
      ∧ isOwnedBy foreignRoute.meta sampleOwner = false)
    ∧ (reconcileHTTPRoute [(sampleReq, foreignRoute)] sampleReq sampleOwner
        { parentRefs := [], hostnames := [str "b.com"], rules := [] }
        = (Outcome.skipped, [(sampleReq, foreignRoute)])
      ∧ (reconcileHTTPRoute [(sampleReq, foreignRoute)] sampleReq sampleOwner
          { parentRefs := [], hostnames := [str "b.com"], rules := [] }).2.get sampleReq
          = some foreignRoute) :=
  ⟨⟨by decide, by decide⟩
  , c4_foreign_owned_skipped [(sampleReq, foreignRoute)] sampleReq sampleOwner
      { parentRefs := [], hostnames := [str "b.com"], rules := [] } foreignRoute
      (by decide) (by decide)⟩

/-- Claim C10: isOwnedBy compares only the APIVersion, Kind and Name of
the owner references and ignores the UID (and the Controller and
BlockOwnerDeletion flags); consequently a stored object whose owner
reference carries the same apiVersion, kind and name but a different UID
is treated as owned and, when its spec differs from the desired one, is
updated in place. -/
theorem c10_owned_ignores_uid :
    (∀ (metadata : ObjectMeta) (owner : OwnerReference) (uid' : Str)
        (ctrl' bod' : Option Bool),
        isOwnedBy metadata
            { owner with uid := uid', controller := ctrl', blockOwnerDeletion := bod' }
          = isOwnedBy metadata owner)
    ∧ (∀ (store : Store) (name : NamespacedName) (owner : OwnerReference)
        (spec : HTTPRouteSpec) (route : HTTPRoute) (uid' : Str),
        store.get name = some route →
        route.meta.ownerReferences = [{ owner with uid := uid' }] →
        isEqual route.spec spec = false →
        (reconcileHTTPRoute store name owner spec).1 = Outcome.updated) := by
  constructor
  · intro metadata owner uid' ctrl' bod'
    simp [isOwnedBy]
  · intro store name owner spec route uid' hget hrefs hne
    have howned : isOwnedBy route.meta owner = true := by
      simp [isOwnedBy, hrefs]
    simp [reconcileHTTPRoute, hget, howned, hne]

/-- Helper: a stored route whose owner reference matches the sample owner
on apiVersion, kind and name but carries a different UID (a recreated
declaration). -/
def recreatedOwnerRoute : HTTPRoute :=
  { meta := { name := str "ing-a-com", namespace' := str "ns"
            , ownerReferences := [{ sampleOwner with uid := str "uid-2" }] }
  , spec := { parentRefs := [], hostnames := [str "old.com"], rules := [] } }

/-- Claim C10, witness: the theorem's update branch evaluated on a store
holding a route owned by the same declaration name under a different UID,
with a differing desired spec. -/
theorem c10_witness :
    (Store.get ([(sampleReq, recreatedOwnerRoute)] : Store) sampleReq
        = some recreatedOwnerRoute
      ∧ recreatedOwnerRoute.meta.ownerReferences = [{ sampleOwner with uid := str "uid-2" }]
      ∧ isEqual recreatedOwnerRoute.spec sampleSpec = false)
    ∧ (reconcileHTTPRoute [(sampleReq, recreatedOwnerRoute)] sampleReq sampleOwner
        sampleSpec).1 = Outcome.updated := by
  refine ⟨⟨by decide, by decide, by decide⟩, ?_⟩
  exact c10_owned_ignores_uid.2 [(sampleReq, recreatedOwnerRoute)] sampleReq sampleOwner
    sampleSpec recreatedOwnerRoute (str "uid-2") (by decide) (by decide) (by decide)

/-- Helper: an ingress whose first hostname resolves and whose second
hostname's backend references a named port of a missing service. -/
def c7Ingress : Ingress :=
  { name := str "ing", namespace' := str "ns", uid := str "uid-1"
  , rules :=
      [ { host := str "a.com", http := some [samplePath "/" (numericBackend "s" 80)] }
      , { host := str "b.com", http := some [samplePath "/"
            { service := some { name := str "missing"
                              , port := { number := 0, name := str "http" } }
            , resource := none }] } ]
  , defaultBackend := none }

/-- Claim C7, counterexample: with hostname "a.com" resolving and hostname
"b.com" failing on a named port whose service is absent, the pass aborts
with the lookup error, but the HTTPRoute already written for "a.com"
survives in the store — contradicting the claim that no write performed by
the pass survives. -/
theorem c7_counterexample :
    (IngressController.Reconcile { requireHostname := false } [] [sampleGateway] []
        (some c7Ingress) sampleReq).1 = some (str "service not found")
    ∧ (IngressController.Reconcile { requireHostname := false } [] [sampleGateway] []
        (some c7Ingress) sampleReq).2.length = 1
    ∧ Store.get (IngressController.Reconcile { requireHostname := false } [] [sampleGateway] []
        (some c7Ingress) sampleReq).2 { namespace' := str "ns", name := str "ing-a-com" }
        ≠ none :=
  ⟨by decide, by decide, by decide⟩

/-- Claim C7, amended: when backend resolution fails for a hostname (for
instance a named port whose service cannot be found), the pass aborts at
that hostname with the error: no route is written for the failing hostname
or any later one, and the store — including every write already performed
for earlier hostnames — is left exactly as it was. -/
theorem c7_backend_error_aborts (services : List Service) (gateways : List Gateway)
    (ns reqName : Str) (owner : OwnerReference) (dref : Option HTTPBackendRef)
    (irules : List IngressRule) (hbad : Str) (rest : List Str) (store : Store) (e : Str)
    (herr : IngressController.createHTTPRouteRules services ns
        (irules.filter (fun rule => rule.host == hbad)) dref = Except.error e) :
    IngressController.reconcileLoop services gateways ns reqName owner dref irules
        (hbad :: rest) store = (some e, store) := by
  simp only [IngressController.reconcileLoop, herr]

/-- Claim C7, witness: the amended theorem evaluated on a loop whose first
remaining hostname fails, starting from a store already holding one route:
that route survives untouched. -/
theorem c7_witness :
    IngressController.createHTTPRouteRules [] (str "ns")
        ((c7Ingress.rules).filter (fun rule => rule.host == str "b.com")) none
      = Except.error (str "service not found")
    ∧ IngressController.reconcileLoop [] [sampleGateway] (str "ns") (str "ing")
        sampleOwner none c7Ingress.rules [str "b.com"] [(sampleReq, foreignRoute)]
      = (some (str "service not found"), [(sampleReq, foreignRoute)]) :=
  ⟨by rfl
  , c7_backend_error_aborts [] [sampleGateway] (str "ns") (str "ing") sampleOwner none
      c7Ingress.rules (str "b.com") [] [(sampleReq, foreignRoute)]
      (str "service not found") (by rfl)⟩

/-- Helper: an ingress with zero hostnamed rules but one hostless rule,
and a default backend. -/
def hostlessIngress : Ingress :=
  { name := str "ing", namespace' := str "ns", uid := str "uid-1"
  , rules := [{ host := str "", http := some [samplePath "/" (numericBackend "s" 80)] }]
  , defaultBackend := some (numericBackend "s" 80) }

/-- Claim C9, amended: the failing branch is reached exactly when the
declaration has no rules at all (only then is the extracted hostname list
empty — a declaration whose rules merely all lack hostnames instead takes
the per-hostname loop over the empty hostname and is silently skipped
when no listener matches it): with zero rules, a default backend
successfully mapped, and RequireHostname false, a pass that finds no
accessible catch-all listener does not silently skip — it fails with the
"no catch-all gateways found for default backend" error and writes
nothing; by contrast, in the per-hostname loop a hostname whose candidate
parent-reference set is empty is skipped silently, without error and
without a write. -/
theorem c9_no_catchall_fails :
    (∀ (cfg : IngressController.IngressReconciler) (services : List Service)
        (gateways : List Gateway) (store : Store) (ingress : Ingress)
        (req : NamespacedName) (dref : HTTPBackendRef),
        cfg.requireHostname = false →
        ingress.rules = [] →
        IngressController.mapDefaultBackendRef services req.namespace' ingress.defaultBackend
          = Except.ok (some dref) →
        gateways ≠ [] →
        findCatchAllGateways req.namespace' gateways = [] →
        IngressController.Reconcile cfg services gateways store (some ingress) req
          = (some (str "no catch-all gateways found for default backend"), store))
    ∧ (∀ (services : List Service) (gateways : List Gateway) (ns reqName : Str)
        (owner : OwnerReference) (dref : Option HTTPBackendRef)
        (irules : List IngressRule) (h : Str) (rest : List Str) (store : Store)
        (rs : List HTTPRouteRule),
        IngressController.createHTTPRouteRules services ns
            (irules.filter (fun rule => rule.host == h)) dref = Except.ok rs →
        rs ≠ [] →
        findMatchingGateways ns h gateways = [] →
        IngressController.reconcileLoop services gateways ns reqName owner dref irules
            (h :: rest) store
          = IngressController.reconcileLoop services gateways ns reqName owner dref irules
              rest store) := by
  constructor
  · intro cfg services gateways store ingress req dref hreq hrules hdef hg hcatch
    have hg' : gateways.isEmpty = false := isEmpty_false_of_ne_nil hg
    simp only [IngressController.Reconcile, hg', hdef, hrules, hreq,
      IngressController.createDefaultBackendSpec, hcatch]
    rfl
  · intro services gateways ns reqName owner dref irules h rest store rs hok hne hfind
    have hne' : rs.isEmpty = false := isEmpty_false_of_ne_nil hne
    simp only [IngressController.reconcileLoop, hok, hne', hfind]
    rfl

/-- Helper: a gateway whose single listener carries an exact (non-wildcard)
hostname, so that it is not a catch-all candidate. -/
def exactHostGateway : Gateway :=
  { name := str "gw", namespace' := str "ns"
  , listeners := [{ name := str "l", hostname := some (str "app.example.com")
                  , allowedRoutesNamespacesFrom := none }] }

/-- Claim C9, counterexample: a declaration with zero hostnamed rules (its
one rule is hostless), a default backend set and RequireHostname false,
reconciled against a gateway with no absent-or-wildcard-hostname listener,
is skipped silently: the pass returns no error and performs no write —
createDefaultBackendSpec is never reached, because the hostless rule makes
the extracted hostname list [""] rather than empty, so the per-hostname
loop runs and drops the empty hostname for lack of candidate parent refs.
This contradicts the claim that such a pass fails with the
"no catch-all gateways found" error. -/
theorem c9_counterexample :
    (hostlessIngress.rules.all (fun rule => rule.host == [])) = true
    ∧ hostlessIngress.defaultBackend ≠ none
    ∧ findCatchAllGateways (str "ns") [exactHostGateway] = ([] : List ParentReference)
    ∧ IngressController.Reconcile { requireHostname := false } [] [exactHostGateway] []
        (some hostlessIngress) sampleReq = ((none : Option Str), ([] : Store)) := by
  refine ⟨?_, ?_, ?_, ?_⟩ <;> decide

/-- Helper: a default-backend-only ingress (no rules). -/
def defaultOnlyIngress : Ingress :=
  { name := str "ing", namespace' := str "ns", uid := str "uid-1"
  , rules := [], defaultBackend := some (numericBackend "s" 80) }

/-- Claim C9, witness: both parts of the theorem evaluated concretely —
the default-backend pass against an exact-hostname-only gateway fails with
the catch-all error, and a hostname with no candidate parent refs is
skipped silently by the loop. -/
theorem c9_witness :
    IngressController.Reconcile { requireHostname := false } [] [exactHostGateway] []
        (some defaultOnlyIngress) sampleReq
      = (some (str "no catch-all gateways found for default backend"), [])
    ∧ IngressController.reconcileLoop [] [exactHostGateway] (str "ns") (str "ing")
        sampleOwner none c7Ingress.rules [str "a.com"] []
      = IngressController.reconcileLoop [] [exactHostGateway] (str "ns") (str "ing")
          sampleOwner none c7Ingress.rules [] [] :=
  ⟨c9_no_catchall_fails.1 { requireHostname := false } [] [exactHostGateway] []
      defaultOnlyIngress sampleReq
      { backendRef :=
          { backendObjectReference :=
              { group := some [], kind := some (str "Service")
              , namespace' := some (str "ns"), name := str "s", port := some 80 }
          , weight := some 1 } }
      rfl rfl (by rfl) (by decide) (by decide)
  , c9_no_catchall_fails.2 [] [exactHostGateway] (str "ns") (str "ing") sampleOwner none
      c7Ingress.rules (str "a.com") [] []
      [{ matches' := [{ path := some { type := some PathMatchType.prefixMatch
                                     , value := some (str "/") } }]
        , backendRefs := [{ backendRef :=
            { backendObjectReference :=
                { group := some [], kind := some (str "Service")
                , namespace' := some (str "ns"), name := str "s", port := some 80 }
            , weight := some 1 } }] }]
      (by rfl) (by decide) (by decide)⟩

/-- Helper: one ingress rule with two paths in anti-lexicographic order
("/b" before "/a"). -/
def unsortedPathsRule : IngressRule :=
  { host := str "h.com"
  , http := some [ samplePath "/b" (numericBackend "s" 80)
                 , samplePath "/a" (numericBackend "s" 80) ] }

/-- Helper: the HTTPRoute rule the per-hostname controller produces for a
prefix path `p` backed by service "s" port 80 in namespace "ns". -/
def weightedRuleFor (p : String) : HTTPRouteRule :=
  { matches' := [{ path := some { type := some PathMatchType.prefixMatch
                                , value := some (str p) } }]
  , backendRefs := [{ backendRef :=
      { backendObjectReference :=
          { group := some [], kind := some (str "Service")
          , namespace' := some (str "ns"), name := str "s", port := some 80 }
      , weight := some 1 } }] }

/-- Helper: the HTTPRoute rule the hostname-grouped controller produces for
a prefix path `p` backed by service "s" port 80 in namespace "ns" (no
weight). -/
def groupedRuleFor (p : String) : HTTPRouteRule :=
  { matches' := [{ path := some { type := some PathMatchType.prefixMatch
                                , value := some (str p) } }]
  , backendRefs := [{ backendRef :=
      { backendObjectReference :=
          { group := some [], kind := some (str "Service")
          , namespace' := some (str "ns"), name := str "s", port := some 80 }
      , weight := none } }] }

/-- Claim C8, counterexample: the per-hostname controller's
createHTTPRouteRules emits the rules in declaration order without sorting
— on paths declared as "/b", "/a" the emitted list is not sorted by
compareHTTPRouteRule, contradicting the claim for objects emitted through
that code path. -/
theorem c8_counterexample :
    IngressController.createHTTPRouteRules [] (str "ns") [unsortedPathsRule] none
      = Except.ok [weightedRuleFor "/b", weightedRuleFor "/a"]
    ∧ ¬ List.Pairwise (fun a b => compareHTTPRouteRule a b ≠ Ordering.gt)
        [weightedRuleFor "/b", weightedRuleFor "/a"] :=
  ⟨by rfl, by decide⟩

/-- Claim C8, amended: in the hostname-grouped controller the rule list of
every emitted object is sorted: whatever list mapToHTTPRouteRules returns
is pairwise non-descending under compareHTTPRouteRule, the lexicographic
comparison on (first path match value, first backend name); the
per-hostname controller's createHTTPRouteRules instead preserves the
declaration order of the rules. -/
theorem c8_rules_sorted_amended (services : List Service) (ns : Str)
    (rules : List IngressRule) (result : List HTTPRouteRule)
    (h : GroupedController.mapToHTTPRouteRules services ns rules = Except.ok result) :
    List.Pairwise (fun a b => compareHTTPRouteRule a b ≠ Ordering.gt) result := by
  simp only [GroupedController.mapToHTTPRouteRules] at h
  cases hc : GroupedController.collectRules services ns rules with
  | error e =>
    rw [hc] at h
    cases h
  | ok collected =>
    rw [hc] at h
    simp only [Bind.bind, Except.bind] at h
    cases h
    exact pairwise_sortStableFunc compareHTTPRouteRule
      (fun a b hab => compareHTTPRouteRule_gt_asymm hab)
      (fun a b c hab hbc => compareHTTPRouteRule_le_trans hab hbc)
      collected

/-- Claim C8, witness: the amended theorem evaluated on the
anti-lexicographically declared paths — the returned list is the sorted
one. -/
theorem c8_witness :
    GroupedController.mapToHTTPRouteRules [] (str "ns") [unsortedPathsRule]
      = Except.ok [groupedRuleFor "/a", groupedRuleFor "/b"]
    ∧ List.Pairwise (fun a b => compareHTTPRouteRule a b ≠ Ordering.gt)
        [groupedRuleFor "/a", groupedRuleFor "/b"] :=
  ⟨by rfl
  , c8_rules_sorted_amended [] (str "ns") [unsortedPathsRule]
      [groupedRuleFor "/a", groupedRuleFor "/b"] (by rfl)⟩

/-- Helper: hostnames with different normalizations yield different route
names (the ingress-name prefix cancels on the left). -/
theorem generateHTTPRouteName_ne_of_clean_ne {n h1 h2 : Str}
    (h : cleanHostname h1 ≠ cleanHostname h2) :
    generateHTTPRouteName n h1 ≠ generateHTTPRouteName n h2 := by
  intro he
  apply h
  simp only [generateHTTPRouteName] at he
  exact List.append_cancel_left he

/-- Helper: an ingress whose two distinct hostnames "a.b" and "a-b"
normalize to the same HTTPRoute name. -/
def collidingIngress : Ingress :=
  { name := str "ing", namespace' := str "ns", uid := str "uid-1"
  , rules :=
      [ { host := str "a.b", http := some [samplePath "/" (numericBackend "s" 80)] }
      , { host := str "a-b", http := some [samplePath "/" (numericBackend "s" 80)] } ]
  , defaultBackend := none }

/-- Claim C1, counterexample: the distinct non-empty hostnames "a.b" and
"a-b" produce the same generated name "ing-a-b" (dots are replaced by
dashes), so the name derivation is not injective; a full pass over such a
declaration, with rules and gateway candidates non-empty, completes
without error but leaves exactly one RouteObject in the store (the second
hostname overwrites the first object) instead of the claimed two objects
with different identities. -/
theorem c1_counterexample :
    str "a.b" ≠ str "a-b"
    ∧ generateHTTPRouteName (str "ing") (str "a.b")
        = generateHTTPRouteName (str "ing") (str "a-b")
    ∧ (IngressController.Reconcile { requireHostname := false } [] [sampleGateway] []
        (some collidingIngress) sampleReq).1 = none
    ∧ (IngressController.Reconcile { requireHostname := false } [] [sampleGateway] []
        (some collidingIngress) sampleReq).2.length = 1 :=
  ⟨by decide, by decide, by decide, by decide⟩

/-- Claim C1, amended: for a declaration whose rules contain exactly two
distinct non-empty hostnames, with non-empty rules and gateway candidates
for each, and whose hostnames moreover have distinct normalized forms
(dots to dashes, asterisks to "wildcard"), the pass emits exactly two
RouteObjects, each with a singleton hostname set, under the two distinct
names derived from the declaration name and the hostnames; the name
derivation is injective only on hostname pairs with distinct normalized
forms. -/
theorem c1_two_hostnames_amended
    (cfg : IngressController.IngressReconciler) (services : List Service)
    (gateways : List Gateway) (ingress : Ingress) (req : NamespacedName)
    (h1 h2 : Str) (dref : Option HTTPBackendRef) (rs1 rs2 : List HTTPRouteRule)
    (hg : gateways ≠ [])
    (hdef : IngressController.mapDefaultBackendRef services req.namespace'
        ingress.defaultBackend = Except.ok dref)
    (hh : extractHostnames ingress.rules = [h1, h2])
    (hne1 : h1 ≠ []) (hne2 : h2 ≠ [])
    (hclean : cleanHostname h1 ≠ cleanHostname h2)
    (hr1 : IngressController.createHTTPRouteRules services req.namespace'
        (ingress.rules.filter (fun rule => rule.host == h1)) dref = Except.ok rs1)
    (hr1ne : rs1 ≠ [])
    (hr2 : IngressController.createHTTPRouteRules services req.namespace'
        (ingress.rules.filter (fun rule => rule.host == h2)) dref = Except.ok rs2)
    (hr2ne : rs2 ≠ [])
    (hp1 : findMatchingGateways req.namespace' h1 gateways ≠ [])
    (hp2 : findMatchingGateways req.namespace' h2 gateways ≠ []) :
    (IngressController.Reconcile cfg services gateways [] (some ingress) req).1 = none
    ∧ generateHTTPRouteName req.name h1 ≠ generateHTTPRouteName req.name h2
    ∧ (IngressController.Reconcile cfg services gateways [] (some ingress) req).2.map
        (fun kv => kv.1.name)
        = [generateHTTPRouteName req.name h1, generateHTTPRouteName req.name h2]
    ∧ (∀ kv ∈ (IngressController.Reconcile cfg services gateways [] (some ingress) req).2,
        kv.2.spec.hostnames.length = 1) := by
  have hn : generateHTTPRouteName req.name h1 ≠ generateHTTPRouteName req.name h2 :=
    generateHTTPRouteName_ne_of_clean_ne hclean
  have hge : gateways.isEmpty = false := isEmpty_false_of_ne_nil hg
  have hrs1e : rs1.isEmpty = false := isEmpty_false_of_ne_nil hr1ne
  have hrs2e : rs2.isEmpty = false := isEmpty_false_of_ne_nil hr2ne
  have hp1e : (findMatchingGateways req.namespace' h1 gateways).isEmpty = false :=
    isEmpty_false_of_ne_nil hp1
  have hp2e : (findMatchingGateways req.namespace' h2 gateways).isEmpty = false :=
    isEmpty_false_of_ne_nil hp2
  have hkne : ¬ (({ namespace' := req.namespace'
                  , name := generateHTTPRouteName req.name h1 } : NamespacedName)
      = { namespace' := req.namespace', name := generateHTTPRouteName req.name h2 }) :=
    fun hkk => hn (congrArg NamespacedName.name hkk)
  have hrun : IngressController.Reconcile cfg services gateways [] (some ingress) req
      = (none,
        [ ({ namespace' := req.namespace', name := generateHTTPRouteName req.name h1 },
           { meta := { name := generateHTTPRouteName req.name h1
                     , namespace' := req.namespace'
                     , ownerReferences := [createOwnerReference ingress] }
           , spec := { parentRefs := findMatchingGateways req.namespace' h1 gateways
                     , hostnames := [h1], rules := rs1 } })
        , ({ namespace' := req.namespace', name := generateHTTPRouteName req.name h2 },
           { meta := { name := generateHTTPRouteName req.name h2
                     , namespace' := req.namespace'
                     , ownerReferences := [createOwnerReference ingress] }
           , spec := { parentRefs := findMatchingGateways req.namespace' h2 gateways
                     , hostnames := [h2], rules := rs2 } }) ]) := by
    simp only [IngressController.Reconcile, hge, hdef, hh, List.isEmpty_cons,
      IngressController.reconcileLoop, hr1, hr2, hrs1e, hrs2e, hp1e, hp2e,
      reconcileHTTPRoute, Store.get, Store.put, hkne, if_false, Bool.false_eq_true,
      if_true]
  refine ⟨?_, hn, ?_, ?_⟩
  · rw [hrun]
  · rw [hrun]
    rfl
  · rw [hrun]
    intro kv hkv
    rcases List.mem_cons.mp hkv with hkv1 | hkv2
    · rw [hkv1]
      rfl
    · rcases List.mem_cons.mp hkv2 with hkv3 | hkv4
      · rw [hkv3]
        rfl
      · cases hkv4

/-- Helper: an ingress with the two distinct hostnames "a.com" and
"b.com" whose normalized forms differ. -/
def twoHostIngress : Ingress :=
  { name := str "ing", namespace' := str "ns", uid := str "uid-1"
  , rules :=
      [ { host := str "a.com", http := some [samplePath "/" (numericBackend "s" 80)] }
      , { host := str "b.com", http := some [samplePath "/" (numericBackend "s" 80)] } ]
  , defaultBackend := none }

/-- Claim C1, witness: the amended theorem evaluated on the hostnames
"a.com" and "b.com" with a catch-all gateway. -/
theorem c1_witness :
    (IngressController.Reconcile { requireHostname := false } [] [sampleGateway] []
        (some twoHostIngress) sampleReq).1 = none
    ∧ generateHTTPRouteName (str "ing") (str "a.com")
        ≠ generateHTTPRouteName (str "ing") (str "b.com")
    ∧ (IngressController.Reconcile { requireHostname := false } [] [sampleGateway] []
        (some twoHostIngress) sampleReq).2.map (fun kv => kv.1.name)
        = [ generateHTTPRouteName (str "ing") (str "a.com")
          , generateHTTPRouteName (str "ing") (str "b.com")]
    ∧ (∀ kv ∈ (IngressController.Reconcile { requireHostname := false } [] [sampleGateway] []
        (some twoHostIngress) sampleReq).2, kv.2.spec.hostnames.length = 1) :=
  c1_two_hostnames_amended { requireHostname := false } [] [sampleGateway] twoHostIngress
    sampleReq (str "a.com") (str "b.com") none
    [weightedRuleFor "/"] [weightedRuleFor "/"]
    (by decide) (by rfl) (by decide) (by decide) (by decide) (by decide)
    (by rfl) (by decide) (by rfl) (by decide) (by decide) (by decide)
